import Mathlib

/-!
Shallow embedding of the StandardAutoscaler control loop
(`python/ray/autoscaler/_private/autoscaler.py`).

Python dicts are modelled as association lists `List (String × α)` (insertion
order preserved, at most one entry per key) or, for counters backed by
`defaultdict(int)` / `dict.get(k, 0)`, as total functions `String → Nat`.
Timestamps are `Int` seconds (the claims only compare and subtract them).
Hash values are opaque `String`s; the imported `hash_launch_conf` is modelled
as a function of the node type carried in the configuration, since the merged
launch config varies only with the node type.
-/

namespace RayAutoscaler

/-- Python dict assignment `m[k] = v` on an association list: overwrite the
existing entry in place, otherwise append. Keeps keys unique. -/
def dictSet {α : Type} (m : List (String × α)) (k : String) (v : α) :
    List (String × α) :=
  if (m.lookup k).isSome then
    m.map (fun q => if q.fst = k then (k, v) else q)
  else
    m ++ [(k, v)]

/-- Python `base.update(upd)` on association lists: apply `dictSet` for each
pair of `upd` in order. -/
def dictUpdate (base upd : List (String × String)) : List (String × String) :=
  upd.foldl (fun m kv => dictSet m kv.fst kv.snd) base

/-- A resource bundle: mapping from resource name to capacity. -/
abbrev Resources := List (String × Nat)

/-- The tags of one node as returned by `provider.node_tags`; `none` models a
missing key (Python `dict.get` returning `None`). -/
structure NodeTags where
  nodeStatus : Option String
  userNodeType : Option String
  launchConfig : Option String
  runtimeConfig : Option String
  fileMountsContents : Option String
deriving DecidableEq

/-- One entry of `available_node_types`. Fields read with
`entry.get(key, default)` in the source are `Option`s here. -/
structure NodeTypeConfig where
  minWorkers : Option Nat
  maxWorkers : Option Nat
  resources : Resources
  workerSetupCommands : Option (List String)
  docker : Option (List (String × String))

/-- The slice of the cluster config (plus the derived hashes computed by
`reset`) that the modelled functions read. `launchHashFor t` stands for
`hash_launch_conf(worker_nodes updated with available_node_types[t].node_config,
auth)`; the hash only depends on the node type tag. Node types accessed with
`self.available_node_types[t]` are assumed present (a missing type raises in
Python and is outside the modelled domain), so the table is a total function. -/
structure Config where
  maxWorkers : Nat
  idleTimeoutMinutes : Int
  availableNodeTypes : String → NodeTypeConfig
  launchHashFor : Option String → String
  runtimeHash : String
  fileMountsContentsHash : Option String
  providerType : String
  restartOnly : Bool
  noRestart : Bool
  workerSetupCommands : List String
  workerStartRayCommands : List String
  docker : Option (List (String × String))

/-- The node provider view the reconciler reads: per-node tags and internal
IPs. -/
structure Provider where
  nodeTags : String → NodeTags
  internalIp : String → String

/-- A `NodeUpdaterThread` handle: `is_alive()` and `exitcode`. -/
structure UpdaterHandle where
  isAlive : Bool
  exitcode : Int
deriving DecidableEq

/-- The mutable per-reconciler state the claims touch. `markedActive` records
the IPs passed to `load_metrics.mark_active` (most recent first). -/
structure State where
  updaters : List (String × UpdaterHandle)
  numFailedUpdates : String → Nat
  numSuccessfulUpdates : String → Nat
  lastHeartbeatTimeByIp : List (String × Int)
  markedActive : List String

/-- Value of the `STATUS_UP_TO_DATE` tag constant. -/
def STATUS_UP_TO_DATE : String := "up-to-date"

/-- `launch_config_ok`: the node's `RAY_LAUNCH_CONFIG` tag equals the hash of
the launch config currently derived from the cluster config. -/
def launch_config_ok (cfg : Config) (tags : NodeTags) : Bool :=
  tags.launchConfig == some (cfg.launchHashFor tags.userNodeType)

/-- `files_up_to_date`: the `RAY_RUNTIME_CONFIG` tag matches `runtime_hash`
and, when a file-mounts-contents hash is computed, the
`RAY_FILE_MOUNTS_CONTENTS` tag matches it. -/
def files_up_to_date (cfg : Config) (tags : NodeTags) : Bool :=
  if tags.runtimeConfig != some cfg.runtimeHash
      || (cfg.fileMountsContentsHash.isSome
          && cfg.fileMountsContentsHash != tags.fileMountsContents) then
    false
  else
    true

/-- `can_update(node_id)`. -/
def can_update (cfg : Config) (p : Provider) (s : State) (node_id : String) :
    Bool :=
  if (s.updaters.lookup node_id).isSome then false
  else if !launch_config_ok cfg (p.nodeTags node_id) then false
  else if s.numFailedUpdates node_id > 0 then false
  else true

/-- `_get_node_type_specific_fields(node_id, "worker_setup_commands")`:
the per-type override when the node has a type tag and the type declares the
field, the global config field otherwise. -/
def node_type_worker_setup_commands (cfg : Config) (p : Provider)
    (node_id : String) : List String :=
  match (p.nodeTags node_id).userNodeType with
  | some t => ((cfg.availableNodeTypes t).workerSetupCommands).getD
      cfg.workerSetupCommands
  | none => cfg.workerSetupCommands

/-- `_get_node_type_specific_fields(node_id, "docker")` in the path where the
global config has a `docker` section. -/
def node_type_docker (cfg : Config) (p : Provider) (node_id : String) :
    List (String × String) :=
  match (p.nodeTags node_id).userNodeType with
  | some t => ((cfg.availableNodeTypes t).docker).getD (cfg.docker.getD [])
  | none => cfg.docker.getD []

/-- `_get_node_specific_docker_config(node_id)`: empty when the config has no
`docker` section, else the global section updated with the per-type one. -/
def node_specific_docker_config (cfg : Config) (p : Provider)
    (node_id : String) : List (String × String) :=
  match cfg.docker with
  | none => []
  | some d => dictUpdate d (node_type_docker cfg p node_id)

/-- The `UpdateInstructions` named tuple returned by `should_update`; the
all-`none` value is the null sentinel. -/
structure UpdateInstructions where
  node_id : Option String
  init_commands : Option (List String)
  start_ray_commands : Option (List String)
  docker_config : Option (List (String × String))
deriving DecidableEq

/-- `should_update(node_id)`. -/
def should_update (cfg : Config) (p : Provider) (s : State)
    (node_id : String) : UpdateInstructions :=
  if !can_update cfg p s node_id then
    ⟨none, none, none, none⟩
  else
    let status := (p.nodeTags node_id).nodeStatus
    if status == some STATUS_UP_TO_DATE
        && files_up_to_date cfg (p.nodeTags node_id) then
      ⟨none, none, none, none⟩
    else
      let successfulUpdated := s.numSuccessfulUpdates node_id > 0
      let initAndRay :=
        if successfulUpdated && cfg.restartOnly then
          (([] : List String), cfg.workerStartRayCommands)
        else if successfulUpdated && cfg.noRestart then
          (node_type_worker_setup_commands cfg p node_id, ([] : List String))
        else
          (node_type_worker_setup_commands cfg p node_id,
            cfg.workerStartRayCommands)
      ⟨some node_id, some initAndRay.fst, some initAndRay.snd,
        some (node_specific_docker_config cfg p node_id)⟩

/-- `recover_if_needed(node_id, now)`. A freshly started updater thread is
alive; its `exitcode` is not yet meaningful (modelled as 1). -/
def recover_if_needed (cfg : Config) (p : Provider) (hbTimeout : Int)
    (s : State) (node_id : String) (now : Int) : State :=
  if !can_update cfg p s node_id then s
  else
    let key := p.internalIp node_id
    let hb :=
      if (s.lastHeartbeatTimeByIp.lookup key).isSome then
        s.lastHeartbeatTimeByIp
      else
        dictSet s.lastHeartbeatTimeByIp key now
    let lastHeartbeatTime := (hb.lookup key).getD now
    let s1 := { s with lastHeartbeatTimeByIp := hb }
    if now - lastHeartbeatTime < hbTimeout then s1
    else { s1 with updaters := dictSet s1.updaters node_id ⟨true, 1⟩ }

/-- Step 6 of the tick: evaluate `should_update` for every current worker
against the pre-dispatch state (the generator is exhausted before any thread
starts), then register one updater per non-null instruction. -/
def dispatch_updates (cfg : Config) (p : Provider) (s : State)
    (nodes : List String) : State :=
  let ids := nodes.filterMap (fun n => (should_update cfg p s n).node_id)
  let newUpdaters := ids.foldl (fun u nid => dictSet u nid ⟨true, 1⟩) s.updaters
  { s with updaters := newUpdaters }

/-- One iteration of the reap loop body: bucket the node's exit code into the
success/failure counters and delete its entry from the updaters map. -/
def reap_one (st : State) (nid : String) : State :=
  let h := (st.updaters.lookup nid).getD ⟨false, 1⟩
  let st1 :=
    if h.exitcode == 0 then
      { st with numSuccessfulUpdates := fun t =>
          if t = nid then st.numSuccessfulUpdates t + 1
          else st.numSuccessfulUpdates t }
    else
      { st with numFailedUpdates := fun t =>
          if t = nid then st.numFailedUpdates t + 1
          else st.numFailedUpdates t }
  { st1 with updaters := st1.updaters.filter (fun q => q.fst ≠ nid) }

/-- Step 5 of the tick: reap completed updaters. The source iterates over the
completed list bucketing exit codes and deleting map entries, but the
`mark_active` call stands after the loop at the loop's indentation level, so
it is applied once, to the internal IP bound to the loop variable after the
loop — the last completed node only. -/
def reap_completed_updaters (p : Provider) (s : State) : State :=
  let completed :=
    (s.updaters.filter (fun q => !q.snd.isAlive)).map Prod.fst
  match completed.getLast? with
  | none => s
  | some lastId =>
    let s1 := completed.foldl reap_one s
    { s1 with markedActive := p.internalIp lastId :: s1.markedActive }

/-- `_keep_min_worker_of_node_type(node_id, node_type_counts)`: returns the
protection verdict together with the updated (mutated-by-reference) counters. -/
def keep_min_worker_of_node_type (cfg : Config) (p : Provider)
    (node_id : String) (node_type_counts : String → Nat) :
    Bool × (String → Nat) :=
  match (p.nodeTags node_id).userNodeType with
  | some node_type =>
    let counts := fun t =>
      if t = node_type then node_type_counts t + 1 else node_type_counts t
    let minW := ((cfg.availableNodeTypes node_type).minWorkers).getD 0
    let maxW := ((cfg.availableNodeTypes node_type).maxWorkers).getD 0
    (decide (counts node_type ≤ min minW maxW), counts)
  | none => (false, node_type_counts)

/-- The step-2 walk of `_update`: over the last-used-sorted node ids, skip a
node when (min-workers protection or request-resources protection) and its
launch config is ok; otherwise terminate it when idle or outdated. `allowed`
is the `nodes_allowed_to_terminate` map (`.get(node_id, True)` semantics). -/
def terminate_idle_outdated (cfg : Config) (p : Provider)
    (lastUsed : List (String × Int)) (horizon : Int)
    (allowed : List (String × Bool)) :
    (String → Nat) → List String → List String
  | _, [] => []
  | counts, node_id :: rest =>
    let km := keep_min_worker_of_node_type cfg p node_id counts
    if (km.fst || !((allowed.lookup node_id).getD true))
        && launch_config_ok cfg (p.nodeTags node_id) then
      terminate_idle_outdated cfg p lastUsed horizon allowed km.snd rest
    else
      let node_ip := p.internalIp node_id
      if (lastUsed.lookup node_ip).isSome
          && decide (((lastUsed.lookup node_ip).getD 0) < horizon) then
        node_id ::
          terminate_idle_outdated cfg p lastUsed horizon allowed km.snd rest
      else if !launch_config_ok cfg (p.nodeTags node_id) then
        node_id ::
          terminate_idle_outdated cfg p lastUsed horizon allowed km.snd rest
      else
        terminate_idle_outdated cfg p lastUsed horizon allowed km.snd rest

/-- The typed nodes (those carrying a `RAY_USER_NODE_TYPE` tag) among the
sorted node ids, in order. -/
def typedNodes (p : Provider) (sortedNodeIds : List String) : List String :=
  sortedNodeIds.filter (fun n => (p.nodeTags n).userNodeType.isSome)

/-- The `max_node_resources` list collected by
`_get_nodes_allowed_to_terminate`, aligned with `typedNodes`. -/
def maxNodeResources (cfg : Config) (p : Provider)
    (sortedNodeIds : List String) : List Resources :=
  (typedNodes p sortedNodeIds).map (fun n =>
    (cfg.availableNodeTypes ((p.nodeTags n).userNodeType.getD "")).resources)

/-- `_get_nodes_allowed_to_terminate(sorted_node_ids)`. `binPack` stands for
the imported `get_bin_pack_residual`, returning
`(unfulfilled_requests, per_node_remaining_capacity)`. -/
def get_nodes_allowed_to_terminate
    (binPack : List Resources → List Resources →
      List Resources × List Resources)
    (cfg : Config) (p : Provider) (resourceDemandVector : List Resources)
    (sortedNodeIds : List String) : List (String × Bool) :=
  let ids := typedNodes p sortedNodeIds
  let maxRes := maxNodeResources cfg p sortedNodeIds
  let packed := binPack maxRes resourceDemandVector
  (List.range ids.length).map (fun i =>
    (ids.getD i "",
      if !packed.fst.isEmpty then false
      else if packed.snd.getD i [] != maxRes.getD i [] then false
      else true))

/-- Stable insertion of one element into a descending-by-key list: the element
goes before the first strictly smaller key, after equal keys seen so far. -/
def insertDesc (key : String → Int) (a : String) :
    List String → List String
  | [] => [a]
  | b :: bs =>
    if key a > key b then a :: b :: bs else b :: insertDesc key a bs

/-- Stable descending sort by key, modelling `sorted(xs, key=k, reverse=True)`. -/
def sortDesc (key : String → Int) : List String → List String
  | [] => []
  | a :: rest => insertDesc key a (sortDesc key rest)

/-- `_sort_based_on_last_used(nodes, last_used)`. The source evaluates
`min(last_used.values())` unconditionally, which raises `ValueError` when the
map is empty; that failure is the `Except.error` case. -/
def sort_based_on_last_used (p : Provider) (nodes : List String)
    (lastUsed : List (String × Int)) : Except String (List String) :=
  match lastUsed.map Prod.snd with
  | [] => .error "ValueError: min() arg is an empty sequence"
  | v :: vs =>
    let leastRecentlyUsed := vs.foldl min v
    let updatedLastUsed := nodes.foldl (fun m node_id =>
      let ip := p.internalIp node_id
      if (m.lookup ip).isSome then m
      else dictSet m ip (leastRecentlyUsed - 1)) lastUsed
    let lastTimeUsed := fun node_id =>
      (updatedLastUsed.lookup (p.internalIp node_id)).getD 0
    .ok (sortDesc lastTimeUsed nodes)

/-- Step 3 of the tick, the excess-termination loop:
`while (len(nodes) - len(nodes_to_terminate)) > max_workers and nodes`,
popping from the tail of `nodes` (the provider-order worker list) into
`nodes_to_terminate`. Returns `(nodes_to_terminate, nodes)` at loop exit. -/
def excess_termination_loop (maxWorkers : Nat) (nodes toTerminate : List String) :
    List String × List String :=
  if h : nodes ≠ [] ∧ (nodes.length : Int) - toTerminate.length > maxWorkers then
    excess_termination_loop maxWorkers nodes.dropLast
      (toTerminate ++ [nodes.getLast h.1])
  else
    (toTerminate, nodes)
termination_by nodes.length
decreasing_by
  simp only [List.length_dropLast]
  exact Nat.sub_lt (List.length_pos.mpr h.1) Nat.one_pos

/-- The tick body from the idle-termination preamble through the step-2 walk:
sort by last used (which can raise), compute the request-resources protection
map when the demand vector is non-empty, then walk the sorted list. -/
def tick_termination_stage
    (binPack : List Resources → List Resources →
      List Resources × List Resources)
    (cfg : Config) (p : Provider) (lastUsed : List (String × Int))
    (now : Int) (nodes : List String)
    (resourceDemandVector : List Resources) : Except String (List String) :=
  let horizon := now - 60 * cfg.idleTimeoutMinutes
  match sort_based_on_last_used p nodes lastUsed with
  | .error e => .error e
  | .ok sortedNodeIds =>
    let allowed :=
      if !resourceDemandVector.isEmpty then
        get_nodes_allowed_to_terminate binPack cfg p resourceDemandVector
          sortedNodeIds
      else
        []
    .ok (terminate_idle_outdated cfg p lastUsed horizon allowed
      (fun _ => 0) sortedNodeIds)

/-- The `except` branch of `update()`: given the raised exception (is it a
`MaxRetryError`?), the provider type, and the failure counters, return the new
`num_failures` and whether the exception is re-raised. -/
def handle_update_exception (cfg : Config) (excIsMaxRetryError : Bool)
    (numFailures maxFailures : Nat) : Nat × Bool :=
  let isK8sConnectionError :=
    cfg.providerType == "kubernetes" && excIsMaxRetryError
  let numFailures1 :=
    if !isK8sConnectionError then numFailures + 1 else numFailures
  (numFailures1, decide (numFailures1 > maxFailures))

/-- The throttle gate at the top of `_update` together with the
`last_update_time` assignment: when the gate passes, `last_update_time` is set
to `now` before the rest of the body runs, so it advances whether or not the
body later fails. Returns `(new last_update_time, body ran, body error)`. -/
def update_gate (updateIntervalS lastUpdateTime now : Int)
    (body : Except String Unit) : Int × Bool × Option String :=
  if now - lastUpdateTime < updateIntervalS then
    (lastUpdateTime, false, none)
  else
    match body with
    | .ok _ => (now, true, none)
    | .error e => (now, true, some e)

/-! Helper lemmas about association lists used as Python dicts. -/

/-- A key that `lookup` does not find is not among the keys. -/
theorem not_mem_keys_of_lookup_isSome_eq_false {α : Type}
    (m : List (String × α)) (k : String)
    (h : (m.lookup k).isSome = false) : k ∉ m.map Prod.fst := by
  induction m with
  | nil => simp
  | cons hd tl ih =>
    rcases hd with ⟨a, b⟩
    by_cases hak : k == a
    · simp [List.lookup, hak] at h
    · have hk : (tl.lookup k).isSome = false := by
        simpa [List.lookup, hak] using h
      have hne : ¬(k = a) := by simpa using hak
      simp only [List.map_cons, List.mem_cons]
      rintro (h1 | hmem)
      · exact hne h1
      · exact ih hk hmem

/-- `dictSet` preserves uniqueness of keys. -/
theorem dictSet_keys_nodup {α : Type} (m : List (String × α)) (k : String)
    (v : α) (h : (m.map Prod.fst).Nodup) :
    ((dictSet m k v).map Prod.fst).Nodup := by
  unfold dictSet
  by_cases hs : (m.lookup k).isSome
  · rw [if_pos hs]
    have : (m.map (fun q => if q.fst = k then (k, v) else q)).map Prod.fst
        = m.map Prod.fst := by
      rw [List.map_map]
      refine List.map_congr_left (fun q _ => ?_)
      by_cases hq : q.fst = k <;> simp [hq]
    rw [this]
    exact h
  · rw [if_neg hs]
    rw [List.map_append]
    have hk : k ∉ m.map Prod.fst :=
      not_mem_keys_of_lookup_isSome_eq_false m k
        (by rwa [Bool.not_eq_true] at hs)
    simp only [List.map_cons, List.map_nil]
    have hdisj : (m.map Prod.fst).Disjoint [k] := by
      intro x hx hxk
      simp only [List.mem_singleton] at hxk
      subst hxk
      exact hk hx
    exact List.Nodup.append h (List.nodup_singleton k) hdisj

/-- Claim C4: for every exception raised inside a tick, the handler adds one
to `num_failures` unless the provider type is "kubernetes" and the exception
is a `MaxRetryError`, and the exception is re-raised exactly when the
resulting `num_failures` exceeds `max_failures`. -/
theorem update_exception_accounting (cfg : Config) (excIsMaxRetryError : Bool)
    (nf mf : Nat) :
    ((handle_update_exception cfg excIsMaxRetryError nf mf).fst =
      if cfg.providerType = "kubernetes" ∧ excIsMaxRetryError = true then nf
      else nf + 1)
    ∧ ((handle_update_exception cfg excIsMaxRetryError nf mf).snd = true ↔
      (handle_update_exception cfg excIsMaxRetryError nf mf).fst > mf) := by
  constructor
  · unfold handle_update_exception
    by_cases hk : cfg.providerType = "kubernetes" <;>
      by_cases he : excIsMaxRetryError = true <;>
        simp [hk, he]
  · unfold handle_update_exception
    simp

/-- Claim C9: when `last_used_time_by_ip` is empty, the termination stage of
the tick raises (Python `min` of an empty sequence) for every worker list,
including the empty one, and the failure is an ordinary exception (not a
`MaxRetryError`), so the `update()` handler increments `num_failures` under
every provider type. -/
theorem empty_last_used_fails_tick
    (binPack : List Resources → List Resources →
      List Resources × List Resources)
    (cfg : Config) (p : Provider) (now : Int) (nodes : List String)
    (resourceDemandVector : List Resources) :
    tick_termination_stage binPack cfg p [] now nodes resourceDemandVector =
      .error "ValueError: min() arg is an empty sequence"
    ∧ ∀ nf mf : Nat,
        (handle_update_exception cfg false nf mf).fst = nf + 1 := by
  constructor
  · rfl
  · intro nf mf
    simp [handle_update_exception]

/-- Claim C1: in the step-2 walk, a node whose `RAY_LAUNCH_CONFIG` tag
differs from the hash computed from the current config is always added to the
termination set, whatever the min-workers counters and the request-resources
protection map say — the skip branch requires the launch hash to match, so the
two protections can only cause a skip for a node with a matching hash. -/
theorem launch_hash_mismatch_always_terminated
    (cfg : Config) (p : Provider) (lastUsed : List (String × Int))
    (horizon : Int) (allowed : List (String × Bool)) (node_id : String)
    (hlco : launch_config_ok cfg (p.nodeTags node_id) = false) :
    ∀ (counts : String → Nat) (nodes : List String), node_id ∈ nodes →
      node_id ∈ terminate_idle_outdated cfg p lastUsed horizon allowed counts
        nodes := by
  intro counts nodes
  induction nodes generalizing counts with
  | nil => intro h; cases h
  | cons hd tl ih =>
    intro hmem
    rcases List.mem_cons.mp hmem with heq | htl
    · subst heq
      simp [terminate_idle_outdated, hlco]
    · simp only [terminate_idle_outdated]
      split
      · exact ih _ htl
      · split
        · exact List.mem_cons_of_mem _ (ih _ htl)
        · split
          · exact List.mem_cons_of_mem _ (ih _ htl)
          · exact ih _ htl

/-- Claim C10: a node type entry with no explicit `max_workers` defaults to 0
in `_keep_min_worker_of_node_type`, so `min(min_workers, max_workers) = 0` and
the protection never fires for nodes of that type; consequently an idle node
of such a type that the request-resources map does not protect is terminated
by the step-2 walk regardless of the configured `min_workers`. -/
theorem missing_max_workers_disables_min_protection
    (cfg : Config) (p : Provider) (node_id : String) (t : String)
    (htag : (p.nodeTags node_id).userNodeType = some t)
    (hmax : (cfg.availableNodeTypes t).maxWorkers = none) :
    (∀ counts : String → Nat,
      (keep_min_worker_of_node_type cfg p node_id counts).fst = false)
    ∧ (∀ (lastUsed : List (String × Int)) (horizon : Int)
        (allowed : List (String × Bool)) (counts : String → Nat)
        (nodes : List String),
        node_id ∈ nodes →
        (allowed.lookup node_id).getD true = true →
        (lastUsed.lookup (p.internalIp node_id)).isSome = true →
        (lastUsed.lookup (p.internalIp node_id)).getD 0 < horizon →
        node_id ∈ terminate_idle_outdated cfg p lastUsed horizon allowed
          counts nodes) := by
  have hkm : ∀ counts : String → Nat,
      (keep_min_worker_of_node_type cfg p node_id counts).fst = false := by
    intro counts
    unfold keep_min_worker_of_node_type
    rw [htag]
    simp [hmax]
  refine ⟨hkm, ?_⟩
  intro lastUsed horizon allowed counts nodes hmem hallow hsome hlt
  revert hmem
  induction nodes generalizing counts with
  | nil => intro h; cases h
  | cons hd tl ih =>
    intro hmem
    rcases List.mem_cons.mp hmem with heq | htl
    · subst heq
      simp [terminate_idle_outdated, hkm, hallow, hsome, hlt]
    · simp only [terminate_idle_outdated]
      split
      · exact ih _ htl
      · split
        · exact List.mem_cons_of_mem _ (ih _ htl)
        · split
          · exact List.mem_cons_of_mem _ (ih _ htl)
          · exact ih _ htl

/-! Concrete fixtures used by witnesses and counterexamples. -/

/-- A node type with both worker bounds declared. -/
def exType : NodeTypeConfig := ⟨some 2, some 5, [("CPU", 8)], none, none⟩

/-- A node type whose entry omits `max_workers`. -/
def exTypeNoMax : NodeTypeConfig := ⟨some 3, none, [("CPU", 4)], none, none⟩

/-- A concrete cluster config. -/
def exConfig : Config where
  maxWorkers := 5
  idleTimeoutMinutes := 5
  availableNodeTypes := fun t => if t = "B" then exTypeNoMax else exType
  launchHashFor := fun _ => "hash-ok"
  runtimeHash := "rt"
  fileMountsContentsHash := none
  providerType := "aws"
  restartOnly := false
  noRestart := false
  workerSetupCommands := ["setup"]
  workerStartRayCommands := ["ray-start"]
  docker := none

/-- A concrete provider: node "bad" carries a stale launch hash, node "nb"
has type "B" (no per-type `max_workers`), node "srt" has a stale runtime
config, all other nodes are ordinary up-to-date type-"A" workers. Internal IPs
equal node ids. -/
def exProvider : Provider where
  nodeTags := fun n =>
    if n = "bad" then
      ⟨some STATUS_UP_TO_DATE, some "A", some "stale", some "rt", none⟩
    else if n = "nb" then
      ⟨some STATUS_UP_TO_DATE, some "B", some "hash-ok", some "rt", none⟩
    else if n = "srt" then
      ⟨some STATUS_UP_TO_DATE, some "A", some "hash-ok", some "old-rt", none⟩
    else
      ⟨some STATUS_UP_TO_DATE, some "A", some "hash-ok", some "rt", none⟩
  internalIp := fun n => n

/-- Witness for C1: the stale-hash node "bad" is terminated even though it is
first of its type (min-workers would protect it if its hash matched). -/
theorem launch_hash_mismatch_always_terminated_witness :
    launch_config_ok exConfig (exProvider.nodeTags "bad") = false
    ∧ "bad" ∈ terminate_idle_outdated exConfig exProvider [("bad", 0)] 10 []
        (fun _ => 0) ["bad", "n1"] := by
  have h : launch_config_ok exConfig (exProvider.nodeTags "bad") = false := by
    decide
  exact ⟨h, launch_hash_mismatch_always_terminated exConfig exProvider
    [("bad", 0)] 10 [] "bad" h (fun _ => 0) ["bad", "n1"] (by decide)⟩

/-- Witness for C10: the idle node "nb", of a type with `min_workers = 3` but
no `max_workers`, is not protected and is terminated. -/
theorem missing_max_workers_disables_min_protection_witness :
    (keep_min_worker_of_node_type exConfig exProvider "nb"
      (fun _ => 0)).fst = false
    ∧ "nb" ∈ terminate_idle_outdated exConfig exProvider [("nb", 0)] 10 []
        (fun _ => 0) ["nb"] := by
  have h := missing_max_workers_disables_min_protection exConfig exProvider
    "nb" "B" (by decide) (by decide)
  exact ⟨h.1 (fun _ => 0), h.2 [("nb", 0)] 10 [] (fun _ => 0) ["nb"]
    (by decide) (by decide) (by decide) (by decide)⟩

/-- Counterexample to claim C7: a tick whose body fails still sets
`last_update_time` to its start time (the assignment precedes the body), so at
time 105 the gate blocks the body even though no tick has ever succeeded —
had the failing tick at time 100 not pushed the gate back, the body would have
run (third conjunct). -/
theorem failed_tick_pushes_back_gate :
    update_gate 10 0 100 (.error "provider down") =
      (100, true, some "provider down")
    ∧ update_gate 10 100 105 (.ok ()) = (100, false, none)
    ∧ update_gate 10 0 105 (.ok ()) = (105, true, none) := by
  refine ⟨rfl, rfl, rfl⟩

/-- Claim C7 (amended): `_update` returns immediately, running none of the
tick body, when fewer than `update_interval_s` seconds have elapsed since the
last tick that passed the gate — successful or not; whenever the gate passes,
`last_update_time` advances to `now` whether or not the body then fails. -/
theorem gate_uses_last_attempt_time (intervalS last now : Int)
    (body : Except String Unit) :
    (now - last < intervalS →
      update_gate intervalS last now body = (last, false, none))
    ∧ (intervalS ≤ now - last →
      (update_gate intervalS last now body).fst = now
      ∧ (update_gate intervalS last now body).snd.fst = true) := by
  constructor
  · intro h
    simp [update_gate, h]
  · intro h
    have h2 : ¬(now - last < intervalS) := not_lt.mpr h
    cases body with
    | ok u => simp [update_gate, h2]
    | error e => simp [update_gate, h2]

/-- Witness for the amended C7 theorem. -/
theorem gate_uses_last_attempt_time_witness :
    update_gate 10 100 105 (.ok ()) = (100, false, none)
    ∧ (update_gate 10 0 100 (.error "provider down")).fst = 100 :=
  ⟨(gate_uses_last_attempt_time 10 100 105 (.ok ())).1 (by decide),
    ((gate_uses_last_attempt_time 10 0 100
      (.error "provider down")).2 (by decide)).1⟩

/-- A state with two completed (dead) updaters, both with exit code 0. -/
def reapExState : State where
  updaters := [("n1", ⟨false, 0⟩), ("n2", ⟨false, 0⟩)]
  numFailedUpdates := fun _ => 0
  numSuccessfulUpdates := fun _ => 0
  lastHeartbeatTimeByIp := []
  markedActive := []

/-- Claim C5 is a code bug: reaping two completed updaters buckets both exit
codes and deletes both map entries, but `mark_active` stands after the loop,
so it runs once on the loop variable's final value — node "n2"'s IP is marked
active and node "n1"'s never is, though the spec asks for every reaped node. -/
theorem reap_marks_active_only_for_last_node :
    (reap_completed_updaters exProvider reapExState).updaters = []
    ∧ (reap_completed_updaters exProvider
        reapExState).numSuccessfulUpdates "n1" = 1
    ∧ (reap_completed_updaters exProvider
        reapExState).numSuccessfulUpdates "n2" = 1
    ∧ (reap_completed_updaters exProvider reapExState).markedActive = ["n2"]
    ∧ "n1" ∉ (reap_completed_updaters exProvider reapExState).markedActive := by
  refine ⟨rfl, rfl, rfl, rfl, by decide⟩

/-- Last-used map for the C6 counterexample: node "b" is the most recently
used of the two. -/
def exLastUsedBA : List (String × Int) := [("a", 0), ("b", 5)]

/-- Counterexample to claim C6: sorting by last used puts "b" first (most
recently used; the tail of the last-used ordering is "a"), yet with
`max_workers = 1` the step-3 loop pops from the tail of the provider-order
list `["a", "b"]` and terminates "b" — the most recently used worker — while
the least recently used "a" survives. -/
theorem excess_termination_not_lru_counterexample :
    sort_based_on_last_used exProvider ["a", "b"] exLastUsedBA =
      .ok ["b", "a"]
    ∧ excess_termination_loop 1 ["a", "b"] [] = (["b"], ["a"]) := by
  constructor
  · rfl
  · have h1 : (["a", "b"] : List String) ≠ [] := by decide
    rw [excess_termination_loop, dif_pos (And.intro h1 (by decide))]
    show excess_termination_loop 1 ["a"] ["b"] = (["b"], ["a"])
    rw [excess_termination_loop, dif_neg (by decide)]

/-- The step-3 loop removes a suffix of the (provider-order) input list: the
final accumulator is the initial one followed by the removed suffix reversed,
and the surviving nodes are the corresponding prefix. -/
theorem excess_termination_loop_drops_suffix (m : Nat) (nodes tt : List String) :
    ∃ k, k ≤ nodes.length ∧
      excess_termination_loop m nodes tt =
        (tt ++ (nodes.drop k).reverse, nodes.take k) := by
  induction nodes, tt using excess_termination_loop.induct m with
  | case1 nodes tt h ih =>
    obtain ⟨k, hk, heq⟩ := ih
    have hL : nodes.dropLast.length = nodes.length - 1 :=
      List.length_dropLast nodes
    have hk1 : k ≤ nodes.dropLast.length := hk
    refine ⟨k, by omega, ?_⟩
    rw [excess_termination_loop, dif_pos h, heq]
    have h2 : nodes.take k = nodes.dropLast.take k := by
      conv_lhs => rw [← List.dropLast_append_getLast h.1]
      rw [List.take_append_of_le_length hk1]
    have h3 : nodes.drop k =
        nodes.dropLast.drop k ++ [nodes.getLast h.1] := by
      conv_lhs => rw [← List.dropLast_append_getLast h.1]
      rw [List.drop_append_of_le_length hk1]
    rw [h2, h3]
    simp [List.reverse_append]
  | case2 nodes tt h =>
    refine ⟨nodes.length, le_refl _, ?_⟩
    rw [excess_termination_loop, dif_neg h]
    simp

/-- Last-used timestamps for the idle-reclamation scenario: n1 is the most
recently used worker, n5 the least recently used. -/
def scenario2LastUsed : List (String × Int) :=
  [("n1", 1000), ("n2", 990), ("n3", 980), ("n4", 970), ("n5", 960)]

/-- Claim C6 (amended): the step-3 excess-termination loop pops nodes from the
tail of the provider-order worker list — the terminated nodes are a reversed
suffix of that list and the survivors its prefix — which coincides with
least-recently-used order only if the provider list happens to be sorted. In
scenario 2 (5 idle type-"A" workers, `min_workers = 2`) the two
most-recently-used workers survive because the step-2 min-workers protection
skips the first two nodes of the last-used-sorted walk; step 2 terminates the
other three. -/
theorem excess_termination_pops_provider_order_tail :
    (∀ (m : Nat) (nodes tt : List String), ∃ k, k ≤ nodes.length ∧
      excess_termination_loop m nodes tt =
        (tt ++ (nodes.drop k).reverse, nodes.take k))
    ∧ tick_termination_stage (fun a _ => ([], a)) exConfig exProvider
        scenario2LastUsed 2000 ["n3", "n1", "n4", "n2", "n5"] [] =
        .ok ["n3", "n4", "n5"] := by
  refine ⟨fun m nodes tt => excess_termination_loop_drops_suffix m nodes tt, ?_⟩
  rfl

/-- Filtering an association list preserves uniqueness of its keys. -/
theorem filter_keys_nodup {α : Type} (m : List (String × α))
    (P : String × α → Bool) (h : (m.map Prod.fst).Nodup) :
    ((m.filter P).map Prod.fst).Nodup :=
  List.Nodup.sublist (List.Sublist.map Prod.fst (List.filter_sublist m)) h

/-- Registering updaters with `dictSet` in a fold preserves key uniqueness. -/
theorem foldl_dictSet_keys_nodup (ids : List String) :
    ∀ (u : List (String × UpdaterHandle)), (u.map Prod.fst).Nodup →
      ((ids.foldl (fun u nid => dictSet u nid ⟨true, 1⟩) u).map
        Prod.fst).Nodup := by
  induction ids with
  | nil => intro u hu; exact hu
  | cons hd tl ih => intro u hu; exact ih _ (dictSet_keys_nodup u hd _ hu)

/-- One reap iteration only filters the updaters map. -/
theorem reap_one_updaters (st : State) (nid : String) :
    (reap_one st nid).updaters =
      st.updaters.filter (fun q => q.fst ≠ nid) := by
  by_cases hec :
      (((st.updaters.lookup nid).getD ⟨false, 1⟩).exitcode == 0) = true
  · simp [reap_one, hec]
  · simp [reap_one, hec]

/-- The whole reap loop preserves key uniqueness of the updaters map. -/
theorem foldl_reap_one_keys_nodup (ids : List String) :
    ∀ (st : State), (st.updaters.map Prod.fst).Nodup →
      (((ids.foldl reap_one st).updaters.map Prod.fst)).Nodup := by
  induction ids with
  | nil => intro st h; exact h
  | cons hd tl ih =>
    intro st h
    refine ih _ ?_
    rw [reap_one_updaters]
    exact filter_keys_nodup _ _ h

/-- Claim C2: `can_update` returns false when the node already has a live
updater, when its launch hash is stale, or when an earlier update on it
failed; `should_update` returns the null sentinel and `recover_if_needed`
leaves the updaters map untouched whenever `can_update` is false; and every
updater-map mutation of a tick (update dispatch, recovery, reaping) preserves
uniqueness of the NodeID keys, so the map holds at most one entry per node at
every point during and after a tick. -/
theorem updaters_gated_and_unique (cfg : Config) (p : Provider)
    (hbTimeout now : Int) :
    (∀ (s : State) (n : String),
      ((s.updaters.lookup n).isSome = true → can_update cfg p s n = false)
      ∧ (launch_config_ok cfg (p.nodeTags n) = false →
          can_update cfg p s n = false)
      ∧ (s.numFailedUpdates n > 0 → can_update cfg p s n = false)
      ∧ (can_update cfg p s n = false →
          should_update cfg p s n = ⟨none, none, none, none⟩)
      ∧ (can_update cfg p s n = false →
          (recover_if_needed cfg p hbTimeout s n now).updaters = s.updaters))
    ∧ (∀ (s : State) (nodes : List String) (n : String),
      (s.updaters.map Prod.fst).Nodup →
      ((dispatch_updates cfg p s nodes).updaters.map Prod.fst).Nodup
      ∧ ((recover_if_needed cfg p hbTimeout s n now).updaters.map
          Prod.fst).Nodup
      ∧ ((reap_completed_updaters p s).updaters.map Prod.fst).Nodup) := by
  constructor
  · intro s n
    refine ⟨?_, ?_, ?_, ?_, ?_⟩
    · intro h
      simp [can_update, h]
    · intro h
      simp [can_update, h]
    · intro h
      simp [can_update, h]
    · intro h
      simp [should_update, h]
    · intro h
      simp [recover_if_needed, h]
  · intro s nodes n h
    refine ⟨?_, ?_, ?_⟩
    · exact foldl_dictSet_keys_nodup _ _ h
    · simp only [recover_if_needed]
      split
      · exact h
      · split
        · split
          · exact h
          · exact dictSet_keys_nodup _ _ _ h
        · split
          · exact h
          · exact dictSet_keys_nodup _ _ _ h
    · simp only [reap_completed_updaters]
      split
      · exact h
      · exact foldl_reap_one_keys_nodup _ _ h

/-- A state with one live updater (node "n1") and one recorded update failure
(node "nf"). -/
def busyState : State where
  updaters := [("n1", ⟨true, 1⟩)]
  numFailedUpdates := fun n => if n = "nf" then 1 else 0
  numSuccessfulUpdates := fun _ => 0
  lastHeartbeatTimeByIp := []
  markedActive := []

/-- Witness for C2, at a state with a live updater on "n1", a stale hash on
"bad", and a recorded failure on "nf". -/
theorem updaters_gated_and_unique_witness :
    can_update exConfig exProvider busyState "n1" = false
    ∧ can_update exConfig exProvider busyState "bad" = false
    ∧ can_update exConfig exProvider busyState "nf" = false
    ∧ should_update exConfig exProvider busyState "n1" =
        ⟨none, none, none, none⟩
    ∧ (recover_if_needed exConfig exProvider 30 busyState "n1" 100).updaters =
        busyState.updaters
    ∧ ((dispatch_updates exConfig exProvider busyState
        ["n1", "n2"]).updaters.map Prod.fst).Nodup := by
  have h := updaters_gated_and_unique exConfig exProvider 30 100
  have h1 : can_update exConfig exProvider busyState "n1" = false :=
    (h.1 busyState "n1").1 (by decide)
  exact ⟨h1,
    (h.1 busyState "bad").2.1 (by decide),
    (h.1 busyState "nf").2.2.1 (by decide),
    (h.1 busyState "n1").2.2.2.1 h1,
    (h.1 busyState "n1").2.2.2.2 h1,
    (h.2 busyState ["n1", "n2"] "n1" (by decide)).1⟩

/-- Indexing a mapped range with a default. -/
theorem getD_map_range {α : Type} (n i : Nat) (f : Nat → α) (d : α)
    (hi : i < n) : ((List.range n).map f).getD i d = f i := by
  rw [List.getD_eq_getElem?_getD, List.getElem?_map, List.getElem?_range hi]
  rfl

/-- Claim C3: with a non-empty demand vector, the request-resources map binds
the i-th typed node (in most-recently-used-first order) to `true` exactly when
the binpack residual leaves no unfulfilled request and the node's remaining
capacity equals its full declared capacity, and to `false` in every other
case. -/
theorem nodes_allowed_to_terminate_characterization
    (binPack : List Resources → List Resources →
      List Resources × List Resources)
    (cfg : Config) (p : Provider) (resourceDemandVector : List Resources)
    (sortedNodeIds : List String)
    (hne : resourceDemandVector ≠ []) (i : Nat)
    (hi : i < (typedNodes p sortedNodeIds).length) :
    ((get_nodes_allowed_to_terminate binPack cfg p resourceDemandVector
        sortedNodeIds).getD i ("", false)).fst =
      (typedNodes p sortedNodeIds).getD i ""
    ∧ (((get_nodes_allowed_to_terminate binPack cfg p resourceDemandVector
        sortedNodeIds).getD i ("", false)).snd = true ↔
      (binPack (maxNodeResources cfg p sortedNodeIds)
        resourceDemandVector).fst = []
      ∧ (binPack (maxNodeResources cfg p sortedNodeIds)
          resourceDemandVector).snd.getD i [] =
        (maxNodeResources cfg p sortedNodeIds).getD i []) := by
  unfold get_nodes_allowed_to_terminate
  rw [getD_map_range _ i _ _ hi]
  constructor
  · rfl
  · by_cases hu : (binPack (maxNodeResources cfg p sortedNodeIds)
        resourceDemandVector).fst = []
    · by_cases he : (binPack (maxNodeResources cfg p sortedNodeIds)
          resourceDemandVector).snd.getD i [] =
          (maxNodeResources cfg p sortedNodeIds).getD i []
      · simp [hu, he]
      · simp [hu, he]
    · simp [hu, List.isEmpty_iff]

/-- Witness for C3: a binpack oracle that fulfils everything while touching no
node capacity marks the only typed node as allowed to terminate. -/
theorem nodes_allowed_to_terminate_characterization_witness :
    ((get_nodes_allowed_to_terminate (fun a _ => ([], a)) exConfig exProvider
        [[("CPU", 1)]] ["n1"]).getD 0 ("", false)).fst = "n1"
    ∧ ((get_nodes_allowed_to_terminate (fun a _ => ([], a)) exConfig
        exProvider [[("CPU", 1)]] ["n1"]).getD 0 ("", false)).snd = true := by
  have h := nodes_allowed_to_terminate_characterization (fun a _ => ([], a))
    exConfig exProvider [[("CPU", 1)]] ["n1"] (by decide) 0 (by decide)
  exact ⟨h.1.trans (by decide), h.2.mpr (by decide)⟩

/-- Claim C8: `should_update` returns the null sentinel exactly when
`can_update` is false or the node's status tag is up-to-date with files in
sync; otherwise its commands follow the restart-only / no-restart matrix,
first match wins. -/
theorem should_update_characterization (cfg : Config) (p : Provider)
    (s : State) (n : String) :
    (should_update cfg p s n = ⟨none, none, none, none⟩ ↔
      can_update cfg p s n = false
      ∨ ((p.nodeTags n).nodeStatus = some STATUS_UP_TO_DATE
          ∧ files_up_to_date cfg (p.nodeTags n) = true))
    ∧ (can_update cfg p s n = true →
      ¬((p.nodeTags n).nodeStatus = some STATUS_UP_TO_DATE
          ∧ files_up_to_date cfg (p.nodeTags n) = true) →
      ((s.numSuccessfulUpdates n > 0 → cfg.restartOnly = true →
        should_update cfg p s n =
          ⟨some n, some [], some cfg.workerStartRayCommands,
            some (node_specific_docker_config cfg p n)⟩)
      ∧ (s.numSuccessfulUpdates n > 0 → cfg.restartOnly = false →
          cfg.noRestart = true →
        should_update cfg p s n =
          ⟨some n, some (node_type_worker_setup_commands cfg p n), some [],
            some (node_specific_docker_config cfg p n)⟩)
      ∧ (¬(s.numSuccessfulUpdates n > 0
            ∧ (cfg.restartOnly = true ∨ cfg.noRestart = true)) →
        should_update cfg p s n =
          ⟨some n, some (node_type_worker_setup_commands cfg p n),
            some cfg.workerStartRayCommands,
            some (node_specific_docker_config cfg p n)⟩))) := by
  by_cases hcu : can_update cfg p s n = true
  · by_cases hst : (p.nodeTags n).nodeStatus = some STATUS_UP_TO_DATE
        ∧ files_up_to_date cfg (p.nodeTags n) = true
    · constructor
      · simp [should_update, hcu, hst.1, hst.2]
      · intro _ habs
        exact absurd hst habs
    · constructor
      · constructor
        · intro hnull
          exfalso
          by_cases hb : ((p.nodeTags n).nodeStatus ==
              some STATUS_UP_TO_DATE
              && files_up_to_date cfg (p.nodeTags n)) = true
          · rcases Bool.and_eq_true_iff.mp hb with ⟨hb1, hb2⟩
            exact hst ⟨beq_iff_eq.mp hb1, hb2⟩
          · simp only [should_update, hcu, Bool.not_true,
              Bool.false_eq_true, if_false, hb, UpdateInstructions.mk.injEq]
              at hnull
            exact Option.some_ne_none n hnull.1
        · intro hor
          rcases hor with hf | hok
          · rw [hcu] at hf
            cases hf
          · exact absurd hok hst
      · intro _ _
        have hb : ((p.nodeTags n).nodeStatus == some STATUS_UP_TO_DATE
            && files_up_to_date cfg (p.nodeTags n)) = false := by
          rw [Bool.and_eq_false_iff]
          by_cases h1 : (p.nodeTags n).nodeStatus = some STATUS_UP_TO_DATE
          · right
            by_cases h2 : files_up_to_date cfg (p.nodeTags n) = true
            · exact absurd ⟨h1, h2⟩ hst
            · exact Bool.not_eq_true _ ▸ h2
          · left
            exact beq_eq_false_iff_ne.mpr h1
        refine ⟨?_, ?_, ?_⟩
        · intro hsucc hro
          simp [should_update, hcu, hb, hsucc, hro]
        · intro hsucc hro hnr
          simp [should_update, hcu, hb, hsucc, hro, hnr]
        · intro hother
          by_cases hsucc : s.numSuccessfulUpdates n > 0
          · have hro : cfg.restartOnly = false := by
              by_cases hro : cfg.restartOnly = true
              · exact absurd ⟨hsucc, Or.inl hro⟩ hother
              · exact Bool.not_eq_true _ ▸ hro
            have hnr : cfg.noRestart = false := by
              by_cases hnr : cfg.noRestart = true
              · exact absurd ⟨hsucc, Or.inr hnr⟩ hother
              · exact Bool.not_eq_true _ ▸ hnr
            simp [should_update, hcu, hb, hsucc, hro, hnr]
          · simp [should_update, hcu, hb, hsucc]
  · have hf : can_update cfg p s n = false := by
      rwa [Bool.not_eq_true] at hcu
    constructor
    · constructor
      · intro _
        exact Or.inl hf
      · intro _
        simp [should_update, hf]
    · intro htrue
      rw [hf] at htrue
      cases htrue

/-- Witness for C8: for a worker with a matching launch hash but stale runtime
config and no prior successful update, a full setup-plus-start instruction is
issued. -/
theorem should_update_characterization_witness :
    should_update exConfig exProvider busyState "srt" =
      ⟨some "srt", some ["setup"], some ["ray-start"], some []⟩ := by
  have h := should_update_characterization exConfig exProvider busyState "srt"
  have h2 := (h.2 (by decide) (by decide)).2.2 (by decide)
  exact h2.trans (by decide)

end RayAutoscaler
